import Mathlib

/-!
Verification development for `clean_old_artifacts_parallel.py`, a retention
cleanup tool that enumerates artifact repositories, queries each for old
artifacts, filters them through glob exclusion patterns and deletes the rest
through a bounded worker pool, accumulating one CSV record per artifact.

The Python source is shallowly embedded: pure helpers become Lean functions;
external effects (the `jf` CLI, the filesystem, JSON decoding, thread
scheduling) become explicit oracle parameters collected in an `Env` record.
Thread-pool nondeterminism is modelled by a `reorder` oracle giving the
completion order of `as_completed`; theorems hypothesise that it permutes the
submitted commands.
-/

/-- JSON values as produced by `json.loads`: null, booleans, numbers, strings,
arrays and objects (association lists). Numbers are modelled as integers; no
claim depends on fractional values. -/
inductive JVal where
  | jnull : JVal
  | jbool : Bool → JVal
  | jnum : Int → JVal
  | jstr : String → JVal
  | jarr : List JVal → JVal
  | jobj : List (String × JVal) → JVal

/-- Python truthiness of a JSON value (`if not x`): null, `False`, `0`, the
empty string, the empty list and the empty dict are falsy. -/
def jfalsy : JVal → Bool
  | JVal.jnull => true
  | JVal.jbool b => !b
  | JVal.jnum n => n == 0
  | JVal.jstr s => s == ""
  | JVal.jarr xs => xs.isEmpty
  | JVal.jobj kvs => kvs.isEmpty

/-- Scan a bracket expression body for its closing `]`, returning the content
before it and the remainder after it. Mirrors the scan in
`fnmatch.translate`. -/
def splitAtClose : List Char → Option (List Char × List Char)
  | [] => none
  | ']' :: rest => some ([], rest)
  | c :: rest =>
    match splitAtClose rest with
    | some (content, rest2) => some (c :: content, rest2)
    | none => none

/-- Parse the part of a glob pattern following `[`: an optional `!` negation,
then the set content (a `]` in first position is literal), then the closing
`]`. Returns `none` when the bracket is unterminated, in which case
`fnmatch` treats the `[` as a literal character. -/
def bracketParse (ps : List Char) : Option (Bool × List Char × List Char) :=
  let step : Bool × List Char :=
    match ps with
    | '!' :: rest => (true, rest)
    | _ => (false, ps)
  match step.2 with
  | ']' :: rest =>
    match splitAtClose rest with
    | some (content, rest2) => some (step.1, ']' :: content, rest2)
    | none => none
  | other =>
    match splitAtClose other with
    | some (content, rest2) => some (step.1, content, rest2)
    | none => none

/-- Membership of a character in a bracket set: `a-b` denotes an inclusive
code-point range (an empty range matches nothing, as in Python), a `-` in
first or last position is literal, all other characters are literal. -/
def inBracket : List Char → Char → Bool
  | a :: '-' :: b :: rest, c =>
    (a.toNat ≤ c.toNat && c.toNat ≤ b.toNat) || inBracket rest c
  | a :: rest, c => (a == c) || inBracket rest c
  | [], _ => false

/-- Fuelled core of shell-glob matching per Python `fnmatch` (regex translation
with `re.DOTALL`): `*` matches any run of characters including separators,
`?` any single character, `[...]` a bracket set, everything else literally.
The fuel strictly exceeds the combined length of pattern and subject at every
call, so the `0` case is never reached. -/
def globMatchF : Nat → List Char → List Char → Bool
  | 0, _, _ => false
  | _ + 1, [], s => s.isEmpty
  | fuel + 1, '*' :: ps, s =>
    globMatchF fuel ps s ||
      (match s with
       | [] => false
       | _ :: s2 => globMatchF fuel ('*' :: ps) s2)
  | fuel + 1, '?' :: ps, s =>
    (match s with
     | [] => false
     | _ :: s2 => globMatchF fuel ps s2)
  | fuel + 1, '[' :: ps, s =>
    (match bracketParse ps with
     | some (neg, content, rest) =>
       (match s with
        | [] => false
        | c :: s2 => (neg != inBracket content c) && globMatchF fuel rest s2)
     | none =>
       (match s with
        | [] => false
        | c :: s2 => ('[' == c) && globMatchF fuel ps s2))
  | fuel + 1, p :: ps, s =>
    (match s with
     | [] => false
     | c :: s2 => (p == c) && globMatchF fuel ps s2)

/-- Python `fnmatch.fnmatch(name, pattern)` on a POSIX platform, where
`os.path.normcase` is the identity: case and separators are compared exactly
as received. -/
def fnmatch (name pattern : String) : Bool :=
  globMatchF (pattern.data.length + name.data.length + 1) pattern.data name.data

/-- Python `set.add`: insert a string into a set, modelled as a duplicate-free
list with insertion order. -/
def setAdd (s : List String) (x : String) : List String :=
  if x ∈ s then s else s ++ [x]

/-- `is_excluded(full_path, exclusion_patterns, matched_patterns)`: walk the
patterns in order; on the first glob match, add that pattern to the matched
set and return `True` immediately; if no pattern matches return `False`. The
in-out `matched_patterns` set becomes an explicit state-passed value. -/
def is_excluded (full_path : String) (exclusion_patterns : List String)
    (matched_patterns : List String) : Bool × List String :=
  match exclusion_patterns with
  | [] => (false, matched_patterns)
  | pattern :: rest =>
    if fnmatch full_path pattern then (true, setAdd matched_patterns pattern)
    else is_excluded full_path rest matched_patterns

/-- One row of the cumulative CSV report, in the fixed column order
Repository; Path; Status; Exclusion Pattern; Error. -/
structure CsvRecord where
  repository : String
  path : String
  status : String
  exclusionPattern : String
  error : String
deriving DecidableEq, Repr

/-- Repository entry kept by `get_repositories`: the `key` and the `rclass`
of a LOCAL or FEDERATED repository. -/
structure Repo where
  key : String
  rclass : String
deriving DecidableEq, Repr

/-- Outcome of one `subprocess.run(..., check=True)` invocation of the `jf`
delete command: success, or `CalledProcessError` carrying an optional
captured stderr text. -/
inductive ProcResult where
  | ok : ProcResult
  | failed : Option String → ProcResult

/-- What `future.result()` yields for one delete worker: the value returned
by `execute_delete`, or an unexpected exception with its message. -/
inductive WorkerResult where
  | completed : ProcResult → WorkerResult
  | raised : String → WorkerResult

/-- `build_delete_command(path, dry_run)`: the fixed `jf rt del <path> --quiet`
command, with `--dry-run` appended when dry-run mode is set. -/
def build_delete_command (path : String) (dry_run : Bool) : List String :=
  let cmd := ["jf", "rt", "del", path, "--quiet"]
  if dry_run then cmd ++ ["--dry-run"] else cmd

/-- `execute_delete`: runs the command and returns `(success, error_msg)`.
On `CalledProcessError` the message is the stripped stderr, or
`Unknown error` when stderr is absent or empty. The command itself does not
influence the returned classification. -/
def execute_delete (cmd : List String) (res : ProcResult) : Bool × String :=
  match res with
  | ProcResult.ok => (true, "")
  | ProcResult.failed stderrText =>
    (false,
      match stderrText with
      | none => "Unknown error"
      | some s => if s = "" then "Unknown error" else s.trim)

/-- The tag of the log line written by `execute_delete`: `DRYRUN-COMPLETE`
when the command carries `--dry-run`, `DELETED` otherwise, `ERROR` on
failure. Only this label distinguishes dry-run from real deletion. -/
def delete_log_label (cmd : List String) (res : ProcResult) : String :=
  match res with
  | ProcResult.ok => if "--dry-run" ∈ cmd then "DRYRUN-COMPLETE" else "DELETED"
  | ProcResult.failed _ => "ERROR"

/-- The CSV record appended when one delete future is collected: a `deleted`
or `error` row built from `execute_delete`, or an `Error` row when
`future.result()` raised; the path is recovered as `cmd[3]`. -/
def delete_record (repoKey : String) (cmd : List String) : WorkerResult → CsvRecord
  | WorkerResult.completed res =>
    let r := execute_delete cmd res
    { repository := repoKey, path := cmd.getD 3 "",
      status := if r.1 then "deleted" else "error",
      exclusionPattern := "", error := r.2 }
  | WorkerResult.raised exc =>
    { repository := repoKey, path := cmd.getD 3 "",
      status := "Error", exclusionPattern := "", error := exc }

/-- The CSV record appended for an excluded artifact: status `skipped`, with
the matched patterns joined by a comma for display. -/
def skip_record (repoKey path : String) (matched : List String) : CsvRecord :=
  { repository := repoKey, path := path, status := "skipped",
    exclusionPattern := String.intercalate ", " matched, error := "" }

/-- The sequential filtering loop of `main` over one repository: for each
artifact path, a fresh matched set is checked by `is_excluded`; excluded
paths yield a `skipped` record, the rest contribute a delete command, both
in artifact order. -/
def scan_items (repoKey : String) (patterns : List String) (dryRun : Bool) :
    List String → List CsvRecord × List (List String)
  | [] => ([], [])
  | path :: rest =>
    let r := is_excluded path patterns []
    let prev := scan_items repoKey patterns dryRun rest
    if r.1 then (skip_record repoKey path r.2 :: prev.1, prev.2)
    else (prev.1, build_delete_command path dryRun :: prev.2)

/-- One repository pass of the delete dispatcher: the skip records from the
sequential scan, followed by one record per submitted command, collected in
the completion order chosen by the scheduler (`reorder`, the model of
`as_completed`). `threads` is the pool size; it influences scheduling only,
never the records. -/
def process_repo (repoKey : String) (patterns : List String) (dryRun : Bool)
    (threads : Nat) (worker : List String → WorkerResult)
    (reorder : List (List String) → List (List String))
    (paths : List String) : List CsvRecord :=
  let scanned := scan_items repoKey patterns dryRun paths
  scanned.1 ++ (reorder scanned.2).map (fun cmd => delete_record repoKey cmd (worker cmd))

/-- `item.get("path", "")` for one artifact record: the string under `path`,
the empty string when the key is absent; `none` models the shapes (non-dict
item, non-string path value) on which the Python run would raise. -/
def item_path : JVal → Option String
  | JVal.jobj kvs =>
    (match List.lookup "path" kvs with
     | none => some ""
     | some (JVal.jstr s) => some s
     | some _ => none)
  | _ => none

/-- Path extraction over a whole artifact list, failing when any single item
fails. -/
def item_paths : List JVal → Option (List String)
  | [] => some []
  | it :: rest =>
    match item_path it, item_paths rest with
    | some p, some ps => some (p :: ps)
    | _, _ => none

/-- `parse_artifacts(search_output)`: a decode failure (`none`) logs an error
and yields the empty list; a JSON list is returned as is; an object is asked
for its `results` key; every other shape yields the empty list with a
warning. The Bool records whether the unexpected-format warning was
emitted. -/
def parse_artifacts : Option JVal → JVal × Bool
  | none => (JVal.jarr [], false)
  | some (JVal.jarr xs) => (JVal.jarr xs, false)
  | some (JVal.jobj kvs) =>
    (match List.lookup "results" kvs with
     | some v => (v, false)
     | none => (JVal.jarr [], true))
  | some _ => (JVal.jarr [], true)

/-- The three ways reading and decoding the exclusions JSON file can go. -/
inductive FileRead where
  | missing : FileRead
  | unparsable : FileRead
  | parsed : JVal → FileRead

/-- `load_exclusion_patterns`: a missing file is `sys.exit(1)`; unparsable
JSON raises out of `json.load` and terminates the process; a parsed document
is asked for its `exclude` key with default `[]`. A parsed document that is
not an object makes `.get` raise, also terminating the process. -/
def load_exclusion_patterns : FileRead → Except String JVal
  | FileRead.missing => Except.error "Exclusion file not found"
  | FileRead.unparsable => Except.error "JSONDecodeError"
  | FileRead.parsed v =>
    match v with
    | JVal.jobj kvs => Except.ok ((List.lookup "exclude" kvs).getD (JVal.jarr []))
    | _ => Except.error "AttributeError"

/-- Conversion of the loaded `exclude` value to the pattern list iterated by
`is_excluded`. A non-list value or a non-string pattern makes the Python run
raise at first use; that is modelled as an immediate failed run, and no
theorem relies on this branch. -/
def str_list : List JVal → Option (List String)
  | [] => some []
  | JVal.jstr s :: rest => (str_list rest).map (fun l => s :: l)
  | _ => none

/-- See `str_list`: the `exclude` value must be a list of strings. -/
def pattern_list : JVal → Option (List String)
  | JVal.jarr vs => str_list vs
  | _ => none

/-- Outcome of `jf rt curl /api/repositories/configurations`: the command
failed, its output was not JSON, or it produced a JSON document. -/
inductive CurlResult where
  | failed : CurlResult
  | badJson : CurlResult
  | ok : JVal → CurlResult

/-- `data.get(rclass, [])` in `get_repositories`: an absent class key yields
the empty list; a non-list value makes the following iteration raise. -/
def class_list : Option JVal → Except String (List JVal)
  | none => Except.ok []
  | some (JVal.jarr xs) => Except.ok xs
  | some _ => Except.error "TypeError"

/-- One repository entry: `repo["key"]` and `repo["rclass"]` must be present
string fields; anything else raises out of `get_repositories` and terminates
the process. -/
def mk_repo : JVal → Except String Repo
  | JVal.jobj kvs =>
    (match List.lookup "key" kvs, List.lookup "rclass" kvs with
     | some (JVal.jstr k), some (JVal.jstr c) => Except.ok ⟨k, c⟩
     | _, _ => Except.error "KeyError")
  | _ => Except.error "TypeError"

/-- `get_repositories`: a failed or unparsable listing is fatal
(`sys.exit(1)`); otherwise the LOCAL entries followed by the FEDERATED
entries are collected. -/
def get_repositories : CurlResult → Except String (List Repo)
  | CurlResult.failed => Except.error "CalledProcessError"
  | CurlResult.badJson => Except.error "JSONDecodeError"
  | CurlResult.ok (JVal.jobj kvs) => do
    let locs ← class_list (List.lookup "LOCAL" kvs)
    let feds ← class_list (List.lookup "FEDERATED" kvs)
    let l ← locs.mapM mk_repo
    let f ← feds.mapM mk_repo
    pure (l ++ f)
  | CurlResult.ok _ => Except.error "AttributeError"

/-- `get_old_artifacts`: a missing AQL spec file is `sys.exit(1)`; a failed
search is logged and returns the `None` sentinel; a successful search
returns its stdout. -/
def get_old_artifacts (specExists : Bool) (searchResult : Option String) :
    Except String (Option String) :=
  if specExists then
    match searchResult with
    | none => Except.ok none
    | some out => Except.ok (some out)
  else Except.error "AQL spec file not found"

/-- The external world of one run: every effectful collaborator of `main`
becomes an oracle. `search` maps a repository key to the stdout of the
search command (`none` = command failed); `jsonDecode` models `json.loads`
on search output; `worker` gives each submitted delete command its result;
`reorder` is the completion order of `as_completed`. -/
structure Env where
  configureOk : Bool
  exclusionsRead : FileRead
  reposCurl : CurlResult
  specExists : Bool
  search : String → Option String
  jsonDecode : String → Option JVal
  worker : List String → WorkerResult
  reorder : List (List String) → List (List String)
  dryRun : Bool
  threads : Nat

/-- The per-repository body of the `main` loop: a failed query or empty
stdout contributes nothing (`continue`), a falsy parse result contributes
nothing, a JSON list of artifacts is dispatched, and malformed shapes raise
out of the loop terminating the run. -/
def repo_records (env : Env) (patterns : List String) (r : Repo) :
    Except String (List CsvRecord) :=
  match get_old_artifacts env.specExists (env.search r.key) with
  | Except.error e => Except.error e
  | Except.ok none => Except.ok []
  | Except.ok (some out) =>
    if out = "" then Except.ok []
    else
      let parsed := (parse_artifacts (env.jsonDecode out)).1
      if jfalsy parsed then Except.ok []
      else
        match parsed with
        | JVal.jarr items =>
          (match item_paths items with
           | some paths =>
             Except.ok (process_repo r.key patterns env.dryRun env.threads
               env.worker env.reorder paths)
           | none => Except.error "AttributeError")
        | _ => Except.error "TypeError"

/-- The repository loop of `main`: repositories are processed strictly in
enumeration order and their records appended to the cumulative list; an
uncaught exception in one pass aborts the run. -/
def run_repos (env : Env) (patterns : List String) :
    List Repo → Except String (List CsvRecord)
  | [] => Except.ok []
  | r :: rest =>
    match repo_records env patterns r with
    | Except.error e => Except.error e
    | Except.ok recs =>
      match run_repos env patterns rest with
      | Except.error e => Except.error e
      | Except.ok more => Except.ok (recs ++ more)

/-- The whole of `main` after logger setup: exit status together with the CSV
report contents, `none` when no report file is written. Fatal setup failures
exit nonzero before the loop; an empty repository list returns early with
exit 0 and, notably, no CSV file; otherwise the report is written and the
process exits 0 however many individual deletions failed. -/
def mainRun (env : Env) : Nat × Option (List CsvRecord) :=
  if env.configureOk = false then (1, none)
  else
    match load_exclusion_patterns env.exclusionsRead with
    | Except.error _ => (1, none)
    | Except.ok pj =>
      match pattern_list pj with
      | none => (1, none)
      | some patterns =>
        match get_repositories env.reposCurl with
        | Except.error _ => (1, none)
        | Except.ok repos =>
          if repos.isEmpty then (0, none)
          else
            match run_repos env patterns repos with
            | Except.error _ => (1, none)
            | Except.ok records => (0, some records)

/-- A worker oracle whose every delete command succeeds. -/
def okWorker : List String → WorkerResult :=
  fun _ => WorkerResult.completed ProcResult.ok

/-- The scheduler that completes futures in submission order. -/
def idOrder : List (List String) → List (List String) := fun l => l

/-- Concrete run environment in which every repository query fails. -/
def envQF : Env :=
  { configureOk := true
    exclusionsRead := FileRead.parsed (JVal.jobj [])
    reposCurl := CurlResult.ok (JVal.jobj [])
    specExists := true
    search := fun _ => none
    jsonDecode := fun _ => none
    worker := okWorker
    reorder := idOrder
    dryRun := false
    threads := 4 }

/-- Concrete run environment whose setup succeeds but whose repository
listing contains no LOCAL or FEDERATED repository. -/
def envZero : Env :=
  { configureOk := true
    exclusionsRead := FileRead.parsed (JVal.jobj [("exclude", JVal.jarr [])])
    reposCurl := CurlResult.ok (JVal.jobj [])
    specExists := true
    search := fun _ => some "[]"
    jsonDecode := fun _ => some (JVal.jarr [])
    worker := okWorker
    reorder := idOrder
    dryRun := false
    threads := 4 }

/-- Concrete run environment with one LOCAL repository whose query returns an
empty artifact list. -/
def envOne : Env :=
  { configureOk := true
    exclusionsRead := FileRead.parsed (JVal.jobj [("exclude", JVal.jarr [])])
    reposCurl := CurlResult.ok (JVal.jobj
      [("LOCAL", JVal.jarr
        [JVal.jobj [("key", JVal.jstr "r1"), ("rclass", JVal.jstr "local")]])])
    specExists := true
    search := fun _ => some "[]"
    jsonDecode := fun _ => some (JVal.jarr [])
    worker := okWorker
    reorder := idOrder
    dryRun := false
    threads := 4 }

/-- Helper: the path recorded for a collected delete future is `cmd[3]`
whatever the worker result was. -/
theorem delete_record_path (repoKey : String) (cmd : List String)
    (w : WorkerResult) : (delete_record repoKey cmd w).path = cmd.getD 3 "" := by
  cases w with
  | completed res => rfl
  | raised exc => rfl

/-- Helper: the delete command stores the artifact path at index 3 in both
modes. -/
theorem build_delete_command_getD (path : String) (dry : Bool) :
    (build_delete_command path dry).getD 3 "" = path := by
  cases dry <;> rfl

/-- Helper: the skip records and delete commands produced by the sequential
scan partition the artifact paths: their paths, concatenated, are a
permutation of the input paths. -/
theorem scan_items_paths_perm (repoKey : String) (patterns : List String)
    (dryRun : Bool) (paths : List String) :
    List.Perm
      ((scan_items repoKey patterns dryRun paths).1.map CsvRecord.path ++
        (scan_items repoKey patterns dryRun paths).2.map (fun c => c.getD 3 ""))
      paths := by
  induction paths with
  | nil => simp [scan_items]
  | cons path rest ih =>
    by_cases h : (is_excluded path patterns []).1 = true
    · simp only [scan_items, h, if_true, List.map_cons, List.cons_append]
      exact ih.cons path
    · simp only [scan_items, h, if_false, Bool.false_eq_true, List.map_cons,
        build_delete_command_getD]
      exact List.Perm.trans List.perm_middle (ih.cons path)

/-- Helper: a successful path extraction preserves the artifact count. -/
theorem item_paths_length (items : List JVal) (paths : List String)
    (h : item_paths items = some paths) : paths.length = items.length := by
  induction items generalizing paths with
  | nil =>
    simp only [item_paths, Option.some.injEq] at h
    subst h; rfl
  | cons it rest ih =>
    simp only [item_paths] at h
    cases hp : item_path it with
    | none => rw [hp] at h; exact absurd h (by simp)
    | some p =>
      rw [hp] at h
      cases hr : item_paths rest with
      | none => rw [hr] at h; exact absurd h (by simp)
      | some ps =>
        rw [hr] at h
        simp only [Option.some.injEq] at h
        subst h
        simp [ih ps hr]

/-- C1: the exclusion check is claimed to return the full set of all patterns
that glob-match the path. Counterexample: against
`["*/tmp/*", "*.bak"]` the path `a/tmp/x.bak` matches both patterns, yet
`is_excluded` reports only the first, short-circuiting at the first match. -/
theorem c1_counterexample :
    fnmatch "a/tmp/x.bak" "*/tmp/*" = true ∧
    fnmatch "a/tmp/x.bak" "*.bak" = true ∧
    is_excluded "a/tmp/x.bak" ["*/tmp/*", "*.bak"] [] =
      (true, ["*/tmp/*"]) := by
  refine ⟨by decide, by decide, by decide⟩

/-- C1 (amended): starting from a fresh matched set, `is_excluded` returns the
first pattern in list order that glob-matches the path as the only element of
the matched set, and the empty set when no pattern matches; later matching
patterns are never reported. -/
theorem c1_first_match_only (path : String) (patterns : List String) :
    is_excluded path patterns [] =
      (match patterns.find? (fun p => fnmatch path p) with
       | some p => (true, [p])
       | none => (false, [])) := by
  induction patterns with
  | nil => rfl
  | cons p ps ih =>
    by_cases h : fnmatch path p = true
    · simp [is_excluded, h, List.find?_cons_of_pos, setAdd]
    · have hb : fnmatch path p = false := by
        cases hf : fnmatch path p
        · rfl
        · exact absurd hf h
      simp only [is_excluded, hb, Bool.false_eq_true, if_false, ih]
      rw [List.find?_cons_of_neg _ (by simp [hb])]

/-- C4: `is_excluded` returns true exactly when at least one pattern
glob-matches the full path, the matching being exact on the string as
received: neither case (`a/TMP/x.bak` versus `*/tmp/*`) nor path separators
(`dir\tmp\x.bak` versus `*/tmp/*`) are normalized. -/
theorem c4_excluded_iff_any_match (path : String)
    (patterns matched : List String) :
    ((is_excluded path patterns matched).1 = true ↔
      ∃ p ∈ patterns, fnmatch path p = true) ∧
    fnmatch "a/TMP/x.bak" "*/tmp/*" = false ∧
    fnmatch "dir\\tmp\\x.bak" "*/tmp/*" = false := by
  refine ⟨?_, by decide, by decide⟩
  induction patterns generalizing matched with
  | nil => simp [is_excluded]
  | cons p ps ih =>
    by_cases h : fnmatch path p = true
    · simp [is_excluded, h]
    · have hb : fnmatch path p = false := by
        cases hf : fnmatch path p
        · rfl
        · exact absurd hf h
      simp [is_excluded, hb, ih]

/-- C4 (witness): the equivalence applied at a concrete path and pattern
list. -/
theorem c4_excluded_iff_any_match_witness :
    (is_excluded "a/tmp/x.bak" ["*.zip", "*.bak"] []).1 = true ↔
      ∃ p ∈ ["*.zip", "*.bak"], fnmatch "a/tmp/x.bak" p = true :=
  (c4_excluded_iff_any_match "a/tmp/x.bak" ["*.zip", "*.bak"] []).1

/-- C3: the claim that every record status is drawn from
`{skipped, deleted, error}` fails on the code: when collecting a worker whose
`future.result()` raised, the record is written with status `Error`
(capitalized), a string outside the claimed enumeration. All other branches
use the lowercase statuses, so the capitalization is a slip in the code. -/
theorem c3_status_capitalization_bug :
    (delete_record "repo1" (build_delete_command "a/b.zip" false)
        (WorkerResult.raised "boom")).status = "Error" ∧
    ¬ ((delete_record "repo1" (build_delete_command "a/b.zip" false)
        (WorkerResult.raised "boom")).status ∈
          (["skipped", "deleted", "error"] : List String)) := by
  refine ⟨rfl, by decide⟩

/-- C7: for every path, the dry-run delete command is the real delete command
plus the single `--dry-run` flag; for every subprocess outcome the
success/failure classification and error message returned by `execute_delete`
are identical in both modes; on success only the logged label differs,
`DRYRUN-COMPLETE` for dry-run and `DELETED` for a real deletion. -/
theorem c7_dry_run_classification (path : String) (res : ProcResult) :
    build_delete_command path true =
      build_delete_command path false ++ ["--dry-run"] ∧
    execute_delete (build_delete_command path true) res =
      execute_delete (build_delete_command path false) res ∧
    delete_log_label (build_delete_command path true) ProcResult.ok =
      "DRYRUN-COMPLETE" ∧
    (path ≠ "--dry-run" →
      delete_log_label (build_delete_command path false) ProcResult.ok =
        "DELETED") := by
  refine ⟨rfl, ?_, ?_, ?_⟩
  · cases res with
    | ok => rfl
    | failed stderrText => rfl
  · have hmem : "--dry-run" ∈ build_delete_command path true := by
      simp [build_delete_command]
    simp [delete_log_label, hmem]
  · intro hp
    have hmem : "--dry-run" ∉ build_delete_command path false := by
      simp only [build_delete_command, if_neg Bool.false_ne_true, List.mem_cons,
        List.not_mem_nil, or_false]
      push_neg
      exact ⟨by decide, by decide, by decide, fun h => hp h.symm, by decide⟩
    simp [delete_log_label, hmem]

/-- C7 (witness): the dry-run relation instantiated at a concrete path and a
concrete failed subprocess outcome. -/
theorem c7_dry_run_classification_witness :
    ("a/b.zip" : String) ≠ "--dry-run" ∧
    build_delete_command "a/b.zip" true =
      build_delete_command "a/b.zip" false ++ ["--dry-run"] ∧
    execute_delete (build_delete_command "a/b.zip" true)
        (ProcResult.failed (some "denied")) =
      execute_delete (build_delete_command "a/b.zip" false)
        (ProcResult.failed (some "denied")) ∧
    delete_log_label (build_delete_command "a/b.zip" false) ProcResult.ok =
      "DELETED" :=
  ⟨by decide,
   (c7_dry_run_classification "a/b.zip" (ProcResult.failed (some "denied"))).1,
   (c7_dry_run_classification "a/b.zip" (ProcResult.failed (some "denied"))).2.1,
   (c7_dry_run_classification "a/b.zip" (ProcResult.failed (some "denied"))).2.2.2
     (by decide)⟩

/-- C6: parsing a successful query response yields the list itself for a JSON
list, the value under `results` for an object carrying that key, and the
empty list with a warning for any other shape (object without `results`,
string, null); an undecodable response also degrades to the empty list; no
input aborts the run. -/
theorem c6_parse_artifacts_shapes (xs : List JVal)
    (kvs : List (String × JVal)) (v : JVal) (s : String) :
    parse_artifacts (some (JVal.jarr xs)) = (JVal.jarr xs, false) ∧
    (List.lookup "results" kvs = some v →
      parse_artifacts (some (JVal.jobj kvs)) = (v, false)) ∧
    (List.lookup "results" kvs = none →
      parse_artifacts (some (JVal.jobj kvs)) = (JVal.jarr [], true)) ∧
    parse_artifacts (some (JVal.jstr s)) = (JVal.jarr [], true) ∧
    parse_artifacts (some JVal.jnull) = (JVal.jarr [], true) ∧
    parse_artifacts none = (JVal.jarr [], false) := by
  refine ⟨rfl, ?_, ?_, rfl, rfl, rfl⟩
  · intro h
    simp [parse_artifacts, h]
  · intro h
    simp [parse_artifacts, h]

/-- C6 (witness): the object-with-`results` case applied at a concrete
envelope. -/
theorem c6_parse_artifacts_shapes_witness :
    List.lookup "results" [("results", JVal.jarr [JVal.jnull])] =
      some (JVal.jarr [JVal.jnull]) ∧
    parse_artifacts (some (JVal.jobj [("results", JVal.jarr [JVal.jnull])])) =
      (JVal.jarr [JVal.jnull], false) :=
  ⟨rfl,
   (c6_parse_artifacts_shapes [] [("results", JVal.jarr [JVal.jnull])]
     (JVal.jarr [JVal.jnull]) "x").2.1 rfl⟩

/-- C9: the claim that only a missing file or unparsable JSON is fatal fails
on the code: a file that exists and parses to a JSON value that is not an
object (here the list `[]`) makes `exclusions.get` raise an uncaught
`AttributeError`, which also terminates the process. -/
theorem c9_counterexample :
    load_exclusion_patterns (FileRead.parsed (JVal.jarr [])) =
      Except.error "AttributeError" := rfl

/-- C9 (amended): an exclusions file that exists and parses to a JSON object
without an `exclude` key loads the empty pattern list and the run proceeds
with no artifact excluded; a missing file, unparsable JSON, or a parsed
document that is not a JSON object is fatal. -/
theorem c9_missing_key_empty (kvs : List (String × JVal)) (path : String)
    (h : List.lookup "exclude" kvs = none) :
    load_exclusion_patterns (FileRead.parsed (JVal.jobj kvs)) =
      Except.ok (JVal.jarr []) ∧
    pattern_list (JVal.jarr []) = some [] ∧
    is_excluded path [] [] = (false, []) ∧
    load_exclusion_patterns FileRead.missing =
      Except.error "Exclusion file not found" ∧
    load_exclusion_patterns FileRead.unparsable =
      Except.error "JSONDecodeError" := by
  refine ⟨?_, rfl, rfl, rfl, rfl⟩
  simp [load_exclusion_patterns, h]

/-- C9 (witness): a concrete object lacking the `exclude` key. -/
theorem c9_missing_key_empty_witness :
    List.lookup "exclude" [("retain", JVal.jnull)] = none ∧
    load_exclusion_patterns
        (FileRead.parsed (JVal.jobj [("retain", JVal.jnull)])) =
      Except.ok (JVal.jarr []) :=
  ⟨rfl, (c9_missing_key_empty [("retain", JVal.jnull)] "a" rfl).1⟩

/-- C2: for any repository pass, any pool size and any completion order of the
concurrent deletions, every artifact fed into the dispatcher yields exactly
one outcome record: the record count equals the artifact count, the recorded
paths are a permutation of the artifact paths (no outcome duplicated or
dropped), and the records do not depend on the worker count. -/
theorem c2_one_outcome_per_artifact (repoKey : String) (patterns : List String)
    (dryRun : Bool) (threads threads2 : Nat)
    (worker : List String → WorkerResult)
    (reorder : List (List String) → List (List String))
    (items : List JVal) (paths : List String)
    (hre : ∀ l, List.Perm (reorder l) l)
    (hip : item_paths items = some paths) :
    (process_repo repoKey patterns dryRun threads worker reorder paths).length =
      items.length ∧
    List.Perm
      ((process_repo repoKey patterns dryRun threads worker reorder paths).map
        CsvRecord.path) paths ∧
    process_repo repoKey patterns dryRun threads worker reorder paths =
      process_repo repoKey patterns dryRun threads2 worker reorder paths := by
  have hmap : List.Perm
      ((process_repo repoKey patterns dryRun threads worker reorder paths).map
        CsvRecord.path) paths := by
    simp only [process_repo, List.map_append, List.map_map]
    have h1 : (reorder (scan_items repoKey patterns dryRun paths).2).map
          (CsvRecord.path ∘ fun cmd => delete_record repoKey cmd (worker cmd)) =
        (reorder (scan_items repoKey patterns dryRun paths).2).map
          (fun c => c.getD 3 "") := by
      simp only [Function.comp_def, delete_record_path]
    rw [h1]
    refine List.Perm.trans
      (List.Perm.append_left _
        (List.Perm.map _ (hre (scan_items repoKey patterns dryRun paths).2))) ?_
    exact scan_items_paths_perm repoKey patterns dryRun paths
  refine ⟨?_, hmap, rfl⟩
  have hl := hmap.length_eq
  rw [List.length_map] at hl
  rw [hl, item_paths_length items paths hip]

/-- C2 (witness): a two-artifact repository, one excluded and one deleted,
with the default pool size and submission-order completion. -/
theorem c2_one_outcome_per_artifact_witness :
    item_paths [JVal.jobj [("path", JVal.jstr "a.bak")],
        JVal.jobj [("path", JVal.jstr "b/rel.zip")]] =
      some ["a.bak", "b/rel.zip"] ∧
    (process_repo "builds-local" ["*.bak"] false 4 okWorker idOrder
        ["a.bak", "b/rel.zip"]).length = 2 :=
  ⟨rfl,
   (c2_one_outcome_per_artifact "builds-local" ["*.bak"] false 4 7 okWorker
     idOrder
     [JVal.jobj [("path", JVal.jstr "a.bak")],
      JVal.jobj [("path", JVal.jstr "b/rel.zip")]]
     ["a.bak", "b/rel.zip"] (fun l => List.Perm.refl l) rfl).1⟩

/-- C10: an artifact record without a `path` field is read as the empty path
by `item.get("path", "")`, does not crash the dispatcher, and yields exactly
one outcome record: a skipped record when the empty path is excluded, a
delete attempt on the empty path otherwise. -/
theorem c10_missing_path_field (kvs : List (String × JVal)) (repoKey : String)
    (patterns : List String) (dryRun : Bool) (threads : Nat)
    (worker : List String → WorkerResult)
    (reorder : List (List String) → List (List String))
    (hk : List.lookup "path" kvs = none)
    (hre : ∀ l, List.Perm (reorder l) l) :
    item_path (JVal.jobj kvs) = some "" ∧
    (process_repo repoKey patterns dryRun threads worker reorder [""]).length =
      1 ∧
    ((is_excluded "" patterns []).1 = true →
      process_repo repoKey patterns dryRun threads worker reorder [""] =
        [skip_record repoKey "" (is_excluded "" patterns []).2]) ∧
    ((is_excluded "" patterns []).1 = false →
      process_repo repoKey patterns dryRun threads worker reorder [""] =
        [delete_record repoKey (build_delete_command "" dryRun)
          (worker (build_delete_command "" dryRun))]) := by
  have hskip : (is_excluded "" patterns []).1 = true →
      process_repo repoKey patterns dryRun threads worker reorder [""] =
        [skip_record repoKey "" (is_excluded "" patterns []).2] := by
    intro h
    simp only [process_repo, scan_items, h, if_true]
    rw [(hre []).eq_nil]
    rfl
  have hdel : (is_excluded "" patterns []).1 = false →
      process_repo repoKey patterns dryRun threads worker reorder [""] =
        [delete_record repoKey (build_delete_command "" dryRun)
          (worker (build_delete_command "" dryRun))] := by
    intro h
    simp only [process_repo, scan_items, h, Bool.false_eq_true, if_false]
    rw [List.perm_singleton.mp (hre [build_delete_command "" dryRun])]
    rfl
  refine ⟨by simp [item_path, hk], ?_, hskip, hdel⟩
  cases h : (is_excluded "" patterns []).1 with
  | true => rw [hskip h]; rfl
  | false => rw [hdel h]; rfl

/-- C10 (witness): a concrete record with no `path` key, an empty pattern
list, submission-order completion. -/
theorem c10_missing_path_field_witness :
    List.lookup "path" ([] : List (String × JVal)) = none ∧
    item_path (JVal.jobj []) = some "" ∧
    (process_repo "r" [] false 4 okWorker idOrder [""]).length = 1 :=
  ⟨rfl,
   (c10_missing_path_field [] "r" [] false 4 okWorker idOrder rfl
     (fun l => List.Perm.refl l)).1,
   (c10_missing_path_field [] "r" [] false 4 okWorker idOrder rfl
     (fun l => List.Perm.refl l)).2.1⟩

/-- C5: when the AQL spec file exists and the search command for a repository
fails, `get_old_artifacts` returns the `None` sentinel, that repository
contributes zero outcome records, and the run continues with the remaining
repositories in enumeration order instead of aborting. -/
theorem c5_query_failure_continues (env : Env) (patterns : List String)
    (r : Repo) (rest : List Repo)
    (hspec : env.specExists = true)
    (hfail : env.search r.key = none) :
    get_old_artifacts env.specExists (env.search r.key) = Except.ok none ∧
    repo_records env patterns r = Except.ok [] ∧
    run_repos env patterns (r :: rest) = run_repos env patterns rest := by
  have h1 : get_old_artifacts env.specExists (env.search r.key) =
      Except.ok none := by
    rw [hspec, hfail]
    rfl
  have h2 : repo_records env patterns r = Except.ok [] := by
    unfold repo_records
    rw [h1]
  refine ⟨h1, h2, ?_⟩
  simp only [run_repos, h2]
  cases hr : run_repos env patterns rest with
  | error e => rfl
  | ok more => simp

/-- C5 (witness): the failing-query environment with repository A failing and
repository B still processed. -/
theorem c5_query_failure_continues_witness :
    envQF.specExists = true ∧
    envQF.search "repoA" = none ∧
    repo_records envQF [] ⟨"repoA", "local"⟩ = Except.ok [] ∧
    run_repos envQF [] [⟨"repoA", "local"⟩, ⟨"repoB", "local"⟩] =
      run_repos envQF [] [⟨"repoB", "local"⟩] :=
  ⟨rfl, rfl,
   (c5_query_failure_continues envQF [] ⟨"repoA", "local"⟩
     [⟨"repoB", "local"⟩] rfl rfl).2.1,
   (c5_query_failure_continues envQF [] ⟨"repoA", "local"⟩
     [⟨"repoB", "local"⟩] rfl rfl).2.2⟩

/-- C8: the claim that every run passing the fatal setup stage writes the
report file and exits zero fails on the code for the run that finds zero
LOCAL or FEDERATED repositories: `main` returns early, with exit status 0
but before the CSV file is ever created. -/
theorem c8_counterexample :
    envZero.configureOk = true ∧
    load_exclusion_patterns envZero.exclusionsRead =
      Except.ok (JVal.jarr []) ∧
    get_repositories envZero.reposCurl = Except.ok [] ∧
    mainRun envZero = (0, none) :=
  ⟨rfl, rfl, rfl, rfl⟩

/-- C8 (amended): a run that passes the fatal setup stage exits with status 0
when the repository listing is empty, but then without writing any report
file; when at least one repository is found and the per-repository
processing completes without an uncaught error, the cumulative report is
written and the process exits 0 regardless of how many individual deletions
failed. -/
theorem c8_report_and_exit (env : Env) (pj : JVal) (patterns : List String)
    (repos : List Repo) (records : List CsvRecord)
    (hcfg : env.configureOk = true)
    (hload : load_exclusion_patterns env.exclusionsRead = Except.ok pj)
    (hpat : pattern_list pj = some patterns)
    (hrep : get_repositories env.reposCurl = Except.ok repos) :
    (repos = [] → mainRun env = (0, none)) ∧
    (repos ≠ [] → run_repos env patterns repos = Except.ok records →
      mainRun env = (0, some records)) := by
  refine ⟨?_, ?_⟩
  · intro h
    subst h
    simp [mainRun, hcfg, hload, hpat, hrep]
  · intro hne hrun
    have hie : repos.isEmpty = false := by
      cases repos with
      | nil => exact absurd rfl hne
      | cons a l => rfl
    simp [mainRun, hcfg, hload, hpat, hrep, hie, hrun]

/-- C8 (witness): the one-repository environment, whose run writes the (here
empty) report and exits 0. -/
theorem c8_report_and_exit_witness :
    envOne.configureOk = true ∧
    load_exclusion_patterns envOne.exclusionsRead =
      Except.ok (JVal.jarr []) ∧
    pattern_list (JVal.jarr []) = some [] ∧
    get_repositories envOne.reposCurl = Except.ok [⟨"r1", "local"⟩] ∧
    run_repos envOne [] [⟨"r1", "local"⟩] = Except.ok [] ∧
    mainRun envOne = (0, some []) :=
  ⟨rfl, rfl, rfl, rfl, rfl,
   (c8_report_and_exit envOne (JVal.jarr []) [] [⟨"r1", "local"⟩] []
     rfl rfl rfl rfl).2 (by simp) rfl⟩
